import Mathlib

/-!
Shallow embedding of the `gogs` graceful-shutdown coordinator (file `gs.go`).

The coordinator is a struct with two fields:
* `list : atomic.Int32` — the count of active shutdown events;
* `wg : sync.WaitGroup` — whose internal counter is an int32 kept alongside `list`.

Go int32 arithmetic wraps modulo 2^32, so every arithmetic step on either
counter goes through `wrap32`.  The `sync.WaitGroup` counter is modelled as a
plain wrapped int32 (its panic on a negative counter is noted in comments where
relevant but not modelled).  Blocking (`Wait`) and real time are not modelled;
the timer races in `UnsubscribeFnWithTimeout` / `WaitWithTimeout` are modelled
by a boolean oracle saying which side of the `select` won.
-/

namespace GoGs

/-- The int32 sign bound 2^31, written as a literal. -/
def i32 : Int := 2147483648

/-- Reduce an unbounded integer to the int32 value it denotes: the unique
integer in `[-2^31, 2^31)` congruent to it modulo `2^32`.  This models Go's
wrapping int32 arithmetic. -/
def wrap32 (z : Int) : Int := (z + i32) % 4294967296 - i32

/-- The `GracefulShutdown` struct of `gs.go`: `list` is the value of the
`atomic.Int32` event counter, `wg` is the internal int32 counter of the
`sync.WaitGroup`. -/
structure GracefulShutdown where
  list : Int
  wg : Int
  deriving DecidableEq, Repr

/-- `Subscribe`: `gs.list.Add(1); gs.wg.Add(1)`. -/
def Subscribe (gs : GracefulShutdown) : GracefulShutdown :=
  { list := wrap32 (gs.list + 1), wg := wrap32 (gs.wg + 1) }

/-- `SubscribeN(count)`: `gs.list.Add(count); gs.wg.Add(int(count))`. -/
def SubscribeN (gs : GracefulShutdown) (count : Int) : GracefulShutdown :=
  { list := wrap32 (gs.list + count), wg := wrap32 (gs.wg + count) }

/-- `Unsubscribe`: return if `gs.list.Load() == 0`, otherwise
`gs.list.Add(-1); gs.wg.Done()`. -/
def Unsubscribe (gs : GracefulShutdown) : GracefulShutdown :=
  if gs.list = 0 then gs
  else { list := wrap32 (gs.list + -1), wg := wrap32 (gs.wg + -1) }

/-- The loop `for i := int32(0); i < count; i++ { gs.wg.Done() }`: apply
`wg.Done()` (a wrapped decrement of the int32 counter) `n` times, where `n` is
the number of loop iterations (`count.toNat`, which is 0 when `count <= 0`,
exactly as the Go loop guard behaves). -/
def doneTimes (w : Int) : Nat → Int
  | 0 => w
  | n + 1 => doneTimes (wrap32 (w + -1)) n

/-- `UnsubscribeN(count)` from `gs.go`:

    list := gs.list.Load()
    if list == 0 { return }
    if list < count { count = list }
    gs.list.Add(count * -1)
    for i := int32(0); i < count; i++ { gs.wg.Done() }
-/
def UnsubscribeN (gs : GracefulShutdown) (count : Int) : GracefulShutdown :=
  let list := gs.list
  if list = 0 then gs
  else
    let count := if list < count then list else count
    { list := wrap32 (gs.list + wrap32 (count * -1)),
      wg := doneTimes gs.wg count.toNat }

/-- `UnsubscribeFn(cleanFn)`: return if `gs.list.Load() == 0`, otherwise run
`cleanFn` on the caller's goroutine with `defer gs.Unsubscribe()`.  The cleanup
function is modelled as a function on an external state `σ` returning the new
external state together with a flag telling whether it ended by panicking.
Because the `Unsubscribe` is deferred, it runs both on normal return and
during panic unwinding, and the panic flag propagates to the caller (the third
component of the result). -/
def UnsubscribeFn {σ : Type} (gs : GracefulShutdown) (cleanFn : σ → σ × Bool)
    (s : σ) : GracefulShutdown × σ × Bool :=
  if gs.list = 0 then (gs, s, false)
  else
    let r := cleanFn s
    (Unsubscribe gs, r.1, r.2)

/-- `UnsubscribeFnWithTimeout(cleanFn, duration)`: return if
`gs.list.Load() == 0`; otherwise `defer gs.Unsubscribe()`, start `cleanFn` on
its own goroutine and `select` between the timer channel and the done channel.
`timerWins` says which side of the `select` fires first.  When the timer wins,
`cleanFn` keeps running detached, so at return time its effect on the external
state has not been observed; when the done channel wins, the effect has. -/
def UnsubscribeFnWithTimeout {σ : Type} (gs : GracefulShutdown) (cleanFn : σ → σ)
    (s : σ) (timerWins : Bool) : GracefulShutdown × σ :=
  if gs.list = 0 then (gs, s)
  else if timerWins then (Unsubscribe gs, s)
  else (Unsubscribe gs, cleanFn s)

/-- `Count`: `gs.list.Load()`. -/
def Count (gs : GracefulShutdown) : Int := gs.list

/-- `WaitWithTimeout(duration)`: races a timer against a background
`gs.Wait()`.  If the timer fires first it executes
`gs.UnsubscribeN(gs.Count())`; if the background waiter finishes first the
coordinator state is untouched.  The blocking itself is not modelled, only the
state effect of whichever `select` branch runs. -/
def WaitWithTimeout (gs : GracefulShutdown) (timerWins : Bool) : GracefulShutdown :=
  if timerWins then UnsubscribeN gs (Count gs) else gs

/-- One call in a sequential trace: `SubscribeN n` or `UnsubscribeN m`. -/
inductive Op where
  | sub (n : Int)
  | unsub (m : Int)
  deriving DecidableEq, Repr

/-- The integer argument of a trace operation. -/
def opArg : Op → Int
  | .sub n => n
  | .unsub m => m

/-- Run one trace operation on the coordinator. -/
def runOp (gs : GracefulShutdown) : Op → GracefulShutdown
  | .sub n => SubscribeN gs n
  | .unsub m => UnsubscribeN gs m

/-- Run a sequential trace of operations. -/
def runOps (gs : GracefulShutdown) : List Op → GracefulShutdown
  | [] => gs
  | op :: ops => runOps (runOp gs op) ops

/-- Total amount subscribed by a trace. -/
def subTotal : List Op → Int
  | [] => 0
  | .sub n :: ops => n + subTotal ops
  | .unsub _ :: ops => subTotal ops

/-- The amount an operation actually unsubscribes when run in state `gs`
(the clamped amount of the spec): 0 for a subscribe, and for `UnsubscribeN m`
either 0 when the counter is already 0 or `min count m` otherwise. -/
def clampedAmount (gs : GracefulShutdown) : Op → Int
  | .sub _ => 0
  | .unsub m => if gs.list = 0 then 0 else min gs.list m

/-- Total amount actually unsubscribed along a trace starting in `gs`. -/
def clampedTotal (gs : GracefulShutdown) : List Op → Int
  | [] => 0
  | op :: ops => clampedAmount gs op + clampedTotal (runOp gs op) ops

/-- Program counter of one goroutine executing `Unsubscribe`, split into its
three atomic actions: the `gs.list.Load()` zero-check, the `gs.list.Add(-1)`,
and the `gs.wg.Done()`. -/
inductive UPc where
  | atLoad
  | atAddList
  | atDecWg
  | fin
  deriving DecidableEq, Repr

/-- Shared state plus the program counters of the goroutines concurrently
executing `Unsubscribe`. -/
structure ConcState where
  gs : GracefulShutdown
  pcs : List UPc
  deriving DecidableEq, Repr

/-- Execute one atomic action of goroutine `i` of an `Unsubscribe` call:
at `atLoad` it performs `gs.list.Load()` and branches on the zero check,
at `atAddList` it performs `gs.list.Add(-1)`, at `atDecWg` it performs
`gs.wg.Done()`. -/
def stepThread (c : ConcState) (i : Nat) : ConcState :=
  match c.pcs[i]? with
  | some UPc.atLoad =>
      if c.gs.list = 0 then { c with pcs := c.pcs.set i UPc.fin }
      else { c with pcs := c.pcs.set i UPc.atAddList }
  | some UPc.atAddList =>
      { gs := { c.gs with list := wrap32 (c.gs.list + -1) },
        pcs := c.pcs.set i UPc.atDecWg }
  | some UPc.atDecWg =>
      { gs := { c.gs with wg := wrap32 (c.gs.wg + -1) },
        pcs := c.pcs.set i UPc.fin }
  | some UPc.fin => c
  | none => c

/-- Run the atomic actions of the goroutines in the interleaving order given
by the schedule. -/
def sched (c : ConcState) : List Nat → ConcState
  | [] => c
  | i :: is => sched (stepThread c i) is

/-! ### Arithmetic lemmas about int32 wrapping -/

theorem wrap32_eq_self {z : Int} (h1 : -i32 ≤ z) (h2 : z < i32) : wrap32 z = z := by
  unfold wrap32 i32 at *
  rw [Int.emod_eq_of_lt (by omega) (by omega)]
  omega

theorem wrap32_zero : wrap32 0 = 0 := by
  unfold wrap32 i32
  decide

theorem wrap32_add_left (a b : Int) : wrap32 (wrap32 a + b) = wrap32 (a + b) := by
  unfold wrap32 i32
  omega

theorem wrap32_add_right (a b : Int) : wrap32 (a + wrap32 b) = wrap32 (a + b) := by
  unfold wrap32 i32
  omega

theorem wrap32_sub_left (a b : Int) : wrap32 (wrap32 a - b) = wrap32 (a - b) := by
  unfold wrap32 i32
  omega

/-! ### Lemmas about the `wg.Done()` loop -/

theorem doneTimes_succ (n : Nat) : ∀ w : Int, doneTimes w (n + 1) = wrap32 (w - ((n : Int) + 1)) := by
  induction n with
  | zero =>
      intro w
      have h : w - (((0 : Nat) : Int) + 1) = w + -1 := by push_cast; ring
      rw [show doneTimes w 1 = wrap32 (w + -1) from rfl, h]
  | succ n ih =>
      intro w
      show doneTimes (wrap32 (w + -1)) (n + 1) = _
      rw [ih]
      have h1 : wrap32 (w + -1) - ((n : Int) + 1) = wrap32 (w + -1) + (-(n : Int) - 1) := by ring
      rw [h1, wrap32_add_left]
      congr 1
      push_cast
      ring

theorem doneTimes_of_pos {c : Int} (w : Int) (hc : 0 < c) :
    doneTimes w c.toNat = wrap32 (w - c) := by
  obtain ⟨n, hn⟩ : ∃ n : Nat, c.toNat = n + 1 := ⟨c.toNat - 1, by omega⟩
  rw [hn, doneTimes_succ]
  congr 1
  omega

theorem doneTimes_of_nonpos {c : Int} (w : Int) (hc : c ≤ 0) :
    doneTimes w c.toNat = w := by
  rw [Int.toNat_of_nonpos hc]
  rfl

/-! ### Shape of `UnsubscribeN` outside the zero-check shortcut -/

theorem UnsubscribeN_eq (gs : GracefulShutdown) (k : Int) (hz : gs.list ≠ 0) :
    UnsubscribeN gs k =
      { list := wrap32 (gs.list - min gs.list k),
        wg := doneTimes gs.wg (min gs.list k).toNat } := by
  simp only [UnsubscribeN, if_neg hz]
  have hmin : (if gs.list < k then gs.list else k) = min gs.list k := by
    rcases lt_or_ge gs.list k with h | h
    · rw [if_pos h, min_eq_left h.le]
    · rw [if_neg (not_lt.mpr h), min_eq_right h]
  rw [hmin]
  congr 1
  have h2 : min gs.list k * -1 = -(min gs.list k) := by ring
  rw [h2, wrap32_add_right, Int.sub_eq_add_neg]

theorem UnsubscribeN_of_zero (gs : GracefulShutdown) (k : Int) (hz : gs.list = 0) :
    UnsubscribeN gs k = gs := by
  simp only [UnsubscribeN, if_pos hz]

/-! ### Sequential traces of `SubscribeN` / `UnsubscribeN` -/

theorem subTotal_nonneg (ops : List Op) (hpos : ∀ op ∈ ops, 0 < opArg op) :
    0 ≤ subTotal ops := by
  induction ops with
  | nil => simp [subTotal]
  | cons op ops ih =>
      have hpos' : ∀ o ∈ ops, 0 < opArg o := fun o ho => hpos o (by simp [ho])
      cases op with
      | sub n =>
          have h1 : 0 < n := hpos (.sub n) (by simp)
          have h2 := ih hpos'
          simp only [subTotal]
          omega
      | unsub m =>
          simpa only [subTotal] using ih hpos'

theorem subTotal_append (l1 l2 : List Op) :
    subTotal (l1 ++ l2) = subTotal l1 + subTotal l2 := by
  induction l1 with
  | nil => simp [subTotal]
  | cons op ops ih =>
      cases op with
      | sub n =>
          simp only [List.cons_append, subTotal, List.append_eq, ih]
          ring
      | unsub m =>
          simpa only [List.cons_append, subTotal, List.append_eq] using ih

theorem runOps_append (gs : GracefulShutdown) (l1 l2 : List Op) :
    runOps gs (l1 ++ l2) = runOps (runOps gs l1) l2 := by
  induction l1 generalizing gs with
  | nil => rfl
  | cons op ops ih => simp only [List.cons_append, runOps, List.append_eq, ih]

theorem runOps_spec (ops : List Op) : ∀ gs : GracefulShutdown,
    0 ≤ gs.list → gs.list + subTotal ops < i32 → (∀ op ∈ ops, 0 < opArg op) →
    (runOps gs ops).list = gs.list + subTotal ops - clampedTotal gs ops ∧
    0 ≤ (runOps gs ops).list ∧
    (runOps gs ops).list ≤ gs.list + subTotal ops := by
  induction ops with
  | nil =>
      intro gs h0 _ _
      simp only [runOps, subTotal, clampedTotal]
      omega
  | cons op ops ih =>
      intro gs h0 hub hpos
      have hposop : 0 < opArg op := hpos op (by simp)
      have hpos' : ∀ o ∈ ops, 0 < opArg o := fun o ho => hpos o (by simp [ho])
      have hsub0 : 0 ≤ subTotal ops := subTotal_nonneg ops hpos'
      cases op with
      | sub n =>
          have hn : 0 < n := hposop
          have hst : subTotal (Op.sub n :: ops) = n + subTotal ops := rfl
          rw [hst] at hub
          have hlist' : (SubscribeN gs n).list = gs.list + n := by
            show wrap32 (gs.list + n) = gs.list + n
            have hup : gs.list + n < i32 := by omega
            exact wrap32_eq_self (by unfold i32 at *; omega) hup
          have hrec := ih (SubscribeN gs n) (by omega)
            (by rw [hlist']; omega) hpos'
          rw [hlist'] at hrec
          have hrun : runOps gs (Op.sub n :: ops) = runOps (SubscribeN gs n) ops := rfl
          have hct : clampedTotal gs (Op.sub n :: ops)
              = clampedTotal (SubscribeN gs n) ops := by
            simp only [clampedTotal, clampedAmount, runOp]
            ring
          rw [hrun, hst, hct]
          omega
      | unsub m =>
          have hm : 0 < m := hposop
          have hst : subTotal (Op.unsub m :: ops) = subTotal ops := rfl
          rw [hst] at hub
          have hrun : runOps gs (Op.unsub m :: ops) = runOps (UnsubscribeN gs m) ops := rfl
          by_cases hz : gs.list = 0
          · have hu : UnsubscribeN gs m = gs := UnsubscribeN_of_zero gs m hz
            have hct : clampedTotal gs (Op.unsub m :: ops)
                = clampedTotal gs ops := by
              simp only [clampedTotal, clampedAmount, runOp, hu, if_pos hz]
              ring
            have hrec := ih gs h0 hub hpos'
            rw [hrun, hu, hst, hct]
            omega
          · have hl : 0 < gs.list := lt_of_le_of_ne h0 (Ne.symm hz)
            have hc1 : 0 < min gs.list m := lt_min hl hm
            have hc2 : min gs.list m ≤ gs.list := min_le_left _ _
            have hu : UnsubscribeN gs m =
                { list := wrap32 (gs.list - min gs.list m),
                  wg := doneTimes gs.wg (min gs.list m).toNat } :=
              UnsubscribeN_eq gs m hz
            have hlist' : (UnsubscribeN gs m).list = gs.list - min gs.list m := by
              rw [hu]
              show wrap32 (gs.list - min gs.list m) = gs.list - min gs.list m
              exact wrap32_eq_self (by unfold i32 at *; omega) (by omega)
            have hrec := ih (UnsubscribeN gs m) (by rw [hlist']; omega)
              (by rw [hlist']; omega) hpos'
            rw [hlist'] at hrec
            have hct : clampedTotal gs (Op.unsub m :: ops)
                = min gs.list m + clampedTotal (UnsubscribeN gs m) ops := by
              simp only [clampedTotal, clampedAmount, runOp, if_neg hz]
            rw [hrun, hst, hct]
            omega

/-! ### The claims -/

/-- C1: for every coordinator state and every positive `k` exceeding `Count()`,
`UnsubscribeN k` clamps the decrement to the available count and leaves
`Count()` at exactly 0, never negative. -/
theorem c1_unsubscribeN_overshoot_zeroes_count (gs : GracefulShutdown) (k : Int)
    (hk : 0 < k) (hgt : Count gs < k) :
    Count (UnsubscribeN gs k) = 0 := by
  have hgt' : gs.list < k := hgt
  by_cases hz : gs.list = 0
  · rw [UnsubscribeN_of_zero gs k hz]
    exact hz
  · have hmin : min gs.list k = gs.list := min_eq_left (le_of_lt hgt')
    rw [UnsubscribeN_eq gs k hz]
    show wrap32 (gs.list - min gs.list k) = 0
    rw [hmin, sub_self, wrap32_zero]

theorem c1_witness : Count (UnsubscribeN ⟨2, 2⟩ 5) = 0 :=
  c1_unsubscribeN_overshoot_zeroes_count ⟨2, 2⟩ 5 (by decide) (by decide)

/-- C2 is refuted by this execution: `Unsubscribe` is a separate
`gs.list.Load()` zero-check followed by `gs.list.Add(-1)` and `gs.wg.Done()`,
not a single atomic compare-and-update.  Two goroutines both running
`Unsubscribe` on a coordinator with count 1 can both pass the zero-check
before either decrements; the schedule below then drives `count` to `-1`
(below zero) and performs two barrier-decrements, leaving the `WaitGroup`
counter negative (which panics in Go). -/
theorem c2_unsubscribe_check_then_act_race :
    (sched ⟨⟨1, 1⟩, [UPc.atLoad, UPc.atLoad]⟩ [0, 1, 0, 0, 1, 1]).gs.list = -1 ∧
    (sched ⟨⟨1, 1⟩, [UPc.atLoad, UPc.atLoad]⟩ [0, 1, 0, 0, 1, 1]).gs.list < 0 ∧
    (sched ⟨⟨1, 1⟩, [UPc.atLoad, UPc.atLoad]⟩ [0, 1, 0, 0, 1, 1]).gs.wg = -1 := by
  decide

/-- C3: from any state satisfying the data-model invariant (`count` and the
barrier counter equal, `count` nonnegative), every operation of the interface
(with the positive arguments the spec gives them) restores the lockstep
between `list` and the `WaitGroup` counter. -/
theorem c3_counter_barrier_lockstep (gs : GracefulShutdown)
    (hq : gs.list = gs.wg) (h0 : 0 ≤ gs.list) :
    (Subscribe gs).list = (Subscribe gs).wg ∧
    (∀ n : Int, (SubscribeN gs n).list = (SubscribeN gs n).wg) ∧
    (Unsubscribe gs).list = (Unsubscribe gs).wg ∧
    (∀ k : Int, 0 < k → (UnsubscribeN gs k).list = (UnsubscribeN gs k).wg) ∧
    (∀ (σ : Type) (f : σ → σ × Bool) (s : σ),
      (UnsubscribeFn gs f s).1.list = (UnsubscribeFn gs f s).1.wg) ∧
    (∀ (σ : Type) (f : σ → σ) (s : σ) (b : Bool),
      (UnsubscribeFnWithTimeout gs f s b).1.list
        = (UnsubscribeFnWithTimeout gs f s b).1.wg) := by
  have hUnsub : (Unsubscribe gs).list = (Unsubscribe gs).wg := by
    unfold Unsubscribe
    by_cases hz : gs.list = 0
    · rw [if_pos hz]; exact hq
    · rw [if_neg hz]
      show wrap32 (gs.list + -1) = wrap32 (gs.wg + -1)
      rw [hq]
  have hUnsubN : ∀ k : Int, 0 < k →
      (UnsubscribeN gs k).list = (UnsubscribeN gs k).wg := by
    intro k hk
    by_cases hz : gs.list = 0
    · rw [UnsubscribeN_of_zero gs k hz]; exact hq
    · have hl : 0 < gs.list := lt_of_le_of_ne h0 (Ne.symm hz)
      have hc : 0 < min gs.list k := lt_min hl hk
      rw [UnsubscribeN_eq gs k hz]
      show wrap32 (gs.list - min gs.list k) = doneTimes gs.wg (min gs.list k).toNat
      rw [doneTimes_of_pos gs.wg hc, hq]
  refine ⟨?_, ?_, hUnsub, hUnsubN, ?_, ?_⟩
  · show wrap32 (gs.list + 1) = wrap32 (gs.wg + 1)
    rw [hq]
  · intro n
    show wrap32 (gs.list + n) = wrap32 (gs.wg + n)
    rw [hq]
  · intro σ f s
    by_cases hz : gs.list = 0
    · simp only [UnsubscribeFn, if_pos hz]
      exact hq
    · simp only [UnsubscribeFn, if_neg hz]
      exact hUnsub
  · intro σ f s b
    by_cases hz : gs.list = 0
    · simp only [UnsubscribeFnWithTimeout, if_pos hz]
      exact hq
    · cases b <;> simp only [UnsubscribeFnWithTimeout, if_neg hz, ite_true, ite_false,
        Bool.false_eq_true, Bool.true_eq_false, if_true, if_false] <;> exact hUnsub

theorem c3_witness : (UnsubscribeN ⟨2, 2⟩ 1).list = (UnsubscribeN ⟨2, 2⟩ 1).wg :=
  (c3_counter_barrier_lockstep ⟨2, 2⟩ rfl (by decide)).2.2.2.1 1 (by decide)

/-- C4 as stated is false of the code: int32 overflow lets a sequence of
subscriptions with positive arguments drive `Count()` negative.  Subscribing
2^31 - 1 and then 1 wraps the counter to -2^31, so the trace below has
positive arguments, ends with a negative count, and the count differs from
`sum(subscribed) - sum(actually unsubscribed)`. -/
theorem c4_counterexample :
    (∀ op ∈ [Op.sub (i32 - 1), Op.sub 1], 0 < opArg op) ∧
    (runOps ⟨0, 0⟩ [Op.sub (i32 - 1), Op.sub 1]).list = -i32 ∧
    (runOps ⟨0, 0⟩ [Op.sub (i32 - 1), Op.sub 1]).list < 0 ∧
    (runOps ⟨0, 0⟩ [Op.sub (i32 - 1), Op.sub 1]).list ≠
      subTotal [Op.sub (i32 - 1), Op.sub 1]
        - clampedTotal ⟨0, 0⟩ [Op.sub (i32 - 1), Op.sub 1] := by
  decide

/-- C4 (amended): for every finite sequential trace of `SubscribeN n` /
`UnsubscribeN m` calls with positive arguments from a fresh coordinator,
provided the total subscribed amount stays below 2^31 (no int32 overflow),
`Count()` never goes negative at any intermediate point and at quiescence it
equals the sum of subscribed amounts minus the sum of the amounts actually
unsubscribed, each clamped to the count available when it ran. -/
theorem c4_amended_trace_accounting (ops : List Op)
    (hpos : ∀ op ∈ ops, 0 < opArg op) (hb : subTotal ops < i32) :
    (∀ pre suf, ops = pre ++ suf → 0 ≤ (runOps ⟨0, 0⟩ pre).list) ∧
    (runOps ⟨0, 0⟩ ops).list = subTotal ops - clampedTotal ⟨0, 0⟩ ops := by
  have h00 : (⟨0, 0⟩ : GracefulShutdown).list = 0 := rfl
  constructor
  · intro pre suf hsplit
    subst hsplit
    have hpre : ∀ op ∈ pre, 0 < opArg op := fun o ho => hpos o (by simp [ho])
    have hsuf : ∀ op ∈ suf, 0 < opArg op := fun o ho => hpos o (by simp [ho])
    have hb' : subTotal pre < i32 := by
      rw [subTotal_append] at hb
      have := subTotal_nonneg suf hsuf
      omega
    exact (runOps_spec pre ⟨0, 0⟩ (by simp [h00]) (by rw [h00]; omega) hpre).2.1
  · have h := runOps_spec ops ⟨0, 0⟩ (by simp [h00]) (by rw [h00]; omega) hpos
    rw [h.1, h00]
    ring

theorem c4_witness :
    (runOps ⟨0, 0⟩ [Op.sub 2, Op.unsub 3]).list =
      subTotal [Op.sub 2, Op.unsub 3] - clampedTotal ⟨0, 0⟩ [Op.sub 2, Op.unsub 3] :=
  (c4_amended_trace_accounting [Op.sub 2, Op.unsub 3] (by decide) (by decide)).2

/-- C5: calling `Unsubscribe` (or `UnsubscribeN k` for any positive `k`) on a
coordinator whose count is 0 is a silent no-op: the entire state, counter and
barrier included, is unchanged. -/
theorem c5_unsubscribe_on_empty_is_noop (gs : GracefulShutdown) (hz : Count gs = 0) :
    Unsubscribe gs = gs ∧ ∀ k : Int, 0 < k → UnsubscribeN gs k = gs := by
  have hz' : gs.list = 0 := hz
  refine ⟨?_, fun k _ => UnsubscribeN_of_zero gs k hz'⟩
  unfold Unsubscribe
  rw [if_pos hz']

theorem c5_witness : UnsubscribeN ⟨0, 5⟩ 3 = ⟨0, 5⟩ :=
  (c5_unsubscribe_on_empty_is_noop ⟨0, 5⟩ rfl).2 3 (by decide)

/-- C6: when the count is positive, `UnsubscribeFn cleanFn` invokes `cleanFn`
on the caller's own thread of execution and then performs exactly one
`Unsubscribe`; the result state is exactly `Unsubscribe gs` even when
`cleanFn` ends by panicking (the flag in the result), the panic propagates to
the caller, and the count decreases by exactly 1. -/
theorem c6_unsubscribeFn_runs_and_releases_once (gs : GracefulShutdown)
    (h : 0 < Count gs) (hin : Count gs < i32) (σ : Type) (f : σ → σ × Bool) (s : σ) :
    UnsubscribeFn gs f s = (Unsubscribe gs, (f s).1, (f s).2) ∧
    Count (UnsubscribeFn gs f s).1 = Count gs - 1 := by
  have h' : 0 < gs.list := h
  have hin' : gs.list < i32 := hin
  have hz : gs.list ≠ 0 := ne_of_gt h'
  have heq : UnsubscribeFn gs f s = (Unsubscribe gs, (f s).1, (f s).2) := by
    simp only [UnsubscribeFn, if_neg hz]
  refine ⟨heq, ?_⟩
  rw [heq]
  show (Unsubscribe gs).list = gs.list - 1
  unfold Unsubscribe
  rw [if_neg hz]
  show wrap32 (gs.list + -1) = gs.list - 1
  rw [wrap32_eq_self (by unfold i32 at *; omega) (by unfold i32 at *; omega)]
  ring

theorem c6_witness :
    Count (UnsubscribeFn (⟨1, 1⟩ : GracefulShutdown) (fun s : Int => (s + 7, true)) 0).1
      = Count (⟨1, 1⟩ : GracefulShutdown) - 1 :=
  (c6_unsubscribeFn_runs_and_releases_once ⟨1, 1⟩ (by decide) (by decide) Int _ 0).2

/-- C7: `UnsubscribeFn` and `UnsubscribeFnWithTimeout` on a coordinator with
count 0 return immediately without invoking the cleanup function (the result
is independent of it and the external state is untouched) and leave the count
at 0. -/
theorem c7_fn_variants_skip_cleanup_on_empty (gs : GracefulShutdown)
    (hz : Count gs = 0) :
    (∀ (σ : Type) (f : σ → σ × Bool) (s : σ),
      UnsubscribeFn gs f s = (gs, s, false) ∧ Count (UnsubscribeFn gs f s).1 = 0) ∧
    (∀ (σ : Type) (f : σ → σ) (s : σ) (b : Bool),
      UnsubscribeFnWithTimeout gs f s b = (gs, s) ∧
      Count (UnsubscribeFnWithTimeout gs f s b).1 = 0) := by
  have hz' : gs.list = 0 := hz
  constructor
  · intro σ f s
    have he : UnsubscribeFn gs f s = (gs, s, false) := by
      simp only [UnsubscribeFn, if_pos hz']
    exact ⟨he, by rw [he]; exact hz⟩
  · intro σ f s b
    have he : UnsubscribeFnWithTimeout gs f s b = (gs, s) := by
      simp only [UnsubscribeFnWithTimeout, if_pos hz']
    exact ⟨he, by rw [he]; exact hz⟩

theorem c7_witness :
    UnsubscribeFn (⟨0, 0⟩ : GracefulShutdown) (fun _ : Bool => (true, false)) false
      = (⟨0, 0⟩, false, false) :=
  ((c7_fn_variants_skip_cleanup_on_empty ⟨0, 0⟩ rfl).1 Bool _ false).1

/-- C8: if the timer of `WaitWithTimeout` fires while the count is still
positive, the call performs `UnsubscribeN (Count gs)`, forcibly zeroing the
counter, so `Count()` is 0 immediately afterwards. -/
theorem c8_waitWithTimeout_timer_forces_zero (gs : GracefulShutdown)
    (h : 0 < Count gs) :
    Count (WaitWithTimeout gs true) = 0 := by
  have hz : gs.list ≠ 0 := ne_of_gt h
  show Count (UnsubscribeN gs (Count gs)) = 0
  rw [UnsubscribeN_eq gs (Count gs) hz]
  show wrap32 (gs.list - min gs.list gs.list) = 0
  rw [min_self, sub_self, wrap32_zero]

theorem c8_witness : Count (WaitWithTimeout ⟨10, 10⟩ true) = 0 :=
  c8_waitWithTimeout_timer_forces_zero ⟨10, 10⟩ (by decide)

/-- C9 as stated ("from every coordinator state") is false of the code: on a
state with a negative count — reachable through the public interface, e.g.
`SubscribeN (2^31 - 2)` followed by `UnsubscribeN (-2^31)` — `Unsubscribe`
decrements further while `UnsubscribeN 1` clamps to the (negative) count and
zeroes it without touching the barrier. -/
theorem c9_counterexample :
    runOps ⟨0, 0⟩ [Op.sub (i32 - 2), Op.unsub (-i32)] = ⟨-2, i32 - 2⟩ ∧
    Unsubscribe ⟨-2, i32 - 2⟩ ≠ UnsubscribeN ⟨-2, i32 - 2⟩ 1 ∧
    (Unsubscribe ⟨-2, i32 - 2⟩).list = -3 ∧
    (UnsubscribeN ⟨-2, i32 - 2⟩ 1).list = 0 := by
  decide

/-- C9 (amended): on every state satisfying the data-model invariant
`count ≥ 0`, `Unsubscribe` and `UnsubscribeN 1` leave the counter and the
barrier in identical final states: both are a no-op at count 0 and a single
paired decrement otherwise. -/
theorem c9_amended_equiv_on_nonneg (gs : GracefulShutdown) (h0 : 0 ≤ gs.list) :
    Unsubscribe gs = UnsubscribeN gs 1 := by
  by_cases hz : gs.list = 0
  · rw [UnsubscribeN_of_zero gs 1 hz]
    unfold Unsubscribe
    rw [if_pos hz]
  · have hl : 0 < gs.list := lt_of_le_of_ne h0 (Ne.symm hz)
    have hmin : min gs.list 1 = 1 := min_eq_right (by omega)
    rw [UnsubscribeN_eq gs 1 hz, hmin]
    unfold Unsubscribe
    rw [if_neg hz]
    have hL : wrap32 (gs.list + -1) = wrap32 (gs.list - 1) := by congr 1
    have hW : wrap32 (gs.wg + -1) = doneTimes gs.wg (Int.toNat 1) := by
      rw [doneTimes_of_pos gs.wg (by norm_num : (0 : Int) < 1)]
      congr 1
    rw [hL, hW]

theorem c9_witness : Unsubscribe ⟨2, 9⟩ = UnsubscribeN ⟨2, 9⟩ 1 :=
  c9_amended_equiv_on_nonneg ⟨2, 9⟩ (by decide)

/-- C10 as stated is false of the code: "a negative k actually increases
count" fails under int32 overflow.  At count 2^31 - 1, `UnsubscribeN (-1)`
adds 1 in wrapping int32 arithmetic, so the count wraps to -2^31: it does not
change by `-k` as an integer and it strictly decreases. -/
theorem c10_counterexample :
    (0 : Int) < (⟨i32 - 1, i32 - 1⟩ : GracefulShutdown).list ∧
    (UnsubscribeN ⟨i32 - 1, i32 - 1⟩ (-1)).wg = i32 - 1 ∧
    (UnsubscribeN ⟨i32 - 1, i32 - 1⟩ (-1)).list = -i32 ∧
    (UnsubscribeN ⟨i32 - 1, i32 - 1⟩ (-1)).list ≠ (i32 - 1) - (-1) ∧
    (UnsubscribeN ⟨i32 - 1, i32 - 1⟩ (-1)).list < i32 - 1 := by
  decide

/-- C10 (amended): `UnsubscribeN` does not guard against non-positive
arguments.  For every state with count > 0 and every `k ≤ 0` the clamping
branch never triggers and zero barrier-decrements are performed, the count
becomes the int32-wrapped value of `count - k` (so `UnsubscribeN 0` is a
complete no-op), and whenever `count - k` does not overflow int32, a negative
`k` strictly increases the count, by exactly `-k`. -/
theorem c10_amended_nonpositive_arg (gs : GracefulShutdown) (k : Int)
    (h : 0 < gs.list) (hin : gs.list < i32) (hk : k ≤ 0) :
    (UnsubscribeN gs k).wg = gs.wg ∧
    (UnsubscribeN gs k).list = wrap32 (gs.list - k) ∧
    (k = 0 → UnsubscribeN gs k = gs) ∧
    (k < 0 → gs.list - k < i32 →
      (UnsubscribeN gs k).list = gs.list - k ∧ gs.list < (UnsubscribeN gs k).list) := by
  have hz : gs.list ≠ 0 := ne_of_gt h
  have hmin : min gs.list k = k := min_eq_right (by omega)
  have hrw := UnsubscribeN_eq gs k hz
  rw [hmin] at hrw
  have hwg : (UnsubscribeN gs k).wg = gs.wg := by
    rw [hrw]
    exact doneTimes_of_nonpos gs.wg hk
  have hlist : (UnsubscribeN gs k).list = wrap32 (gs.list - k) := by
    rw [hrw]
  refine ⟨hwg, hlist, ?_, ?_⟩
  · intro hk0
    subst hk0
    have hL : wrap32 (gs.list - 0) = gs.list := by
      rw [sub_zero]
      exact wrap32_eq_self (by unfold i32 at *; omega) hin
    have hW : doneTimes gs.wg (0 : Int).toNat = gs.wg := rfl
    rw [hrw, hL, hW]
  · intro hneg hov
    have hself : wrap32 (gs.list - k) = gs.list - k :=
      wrap32_eq_self (by unfold i32 at *; omega) hov
    rw [hlist, hself]
    omega

theorem c10_witness :
    (UnsubscribeN ⟨3, 7⟩ (-2)).wg = 7 ∧ (UnsubscribeN ⟨3, 7⟩ (-2)).list = 3 - (-2) :=
  ⟨(c10_amended_nonpositive_arg ⟨3, 7⟩ (-2) (by decide) (by decide) (by decide)).1,
   ((c10_amended_nonpositive_arg ⟨3, 7⟩ (-2) (by decide) (by decide) (by decide)).2.2.2
     (by decide) (by decide)).1⟩

end GoGs
